/-
  Verification of the rubric-gated certification subsystem of the
  `rubric-gates` repository against its natural-language specification.

  The Python sources are shallowly embedded:
  * Python values flowing through the untyped `artifact` / `context`
    mappings become the inductive `PyValue` (floats are modelled as
    exact rationals, `dict`s as insertion-ordered association lists
    with unique keys, exactly the observable Python dict semantics);
  * functions that can raise become `Except String` computations, the
    error string standing for the Python exception;
  * the two external cryptographic hash calls (`hashlib.sha256` over
    file bytes and over concatenated hex digests) are abstracted as an
    arbitrary function parameter `sha : String → String`, so theorems
    quantify over every possible digest function;
  * `uuid.uuid4()` and `datetime.now()` in `create_certificate` are the
    two nondeterministic inputs and are made explicit parameters.

  Files embedded: src/rubric_gates/evaluator.py,
  src/rubric_gates/rubric_loader.py, src/rubric_gates/verify.py,
  src/rubric_gates/datasets/manifest.py.
-/
import Mathlib

namespace RubricGates

/-! ### Python value model -/

/-- A dynamically-typed Python value as it occurs in the `artifact` and
`context` mappings consumed by the evaluator.  Python floats are modelled
as exact rationals; `dict`s as insertion-ordered association lists. -/
inductive PyValue where
  | str : String → PyValue
  | int : Int → PyValue
  | num : Rat → PyValue
  | bool : Bool → PyValue
  | none : PyValue
  | dict : List (String × PyValue) → PyValue
  deriving Repr

/-- Association lists standing for Python dicts (unique keys,
insertion ordered). -/
abbrev PyDict := List (String × PyValue)

/-- First-match lookup, i.e. Python `d.get(k)` on a dict whose keys are
unique.  Generic so it also serves the string-valued maps. -/
def dictGet {α : Type} : List (String × α) → String → Option α
  | [], _ => Option.none
  | (k', v) :: rest, k => if k' == k then some v else dictGet rest k

/-- Python `d[k] = v` on a dict: replace the value in place when the key
is present, otherwise append at the end (insertion order). -/
def assocInsert {α : Type} : List (String × α) → String → α → List (String × α)
  | [], k, v => [(k, v)]
  | (k', v') :: rest, k, v =>
      if k' == k then (k', v) :: rest else (k', v') :: assocInsert rest k v

/-- Python truthiness (`bool(v)`) for the modelled values. -/
def pyTruthy : PyValue → Bool
  | .str s => s != ""
  | .int n => n != 0
  | .num q => q != 0
  | .bool b => b
  | .none => false
  | .dict d => !d.isEmpty

/-- `d.get(k)` followed by Python's implicit `None` for a missing key. -/
def pyGetOr (d : PyDict) (k : String) : PyValue :=
  (dictGet d k).getD .none

/-- Python attribute access `.get`-style on a value that must be a dict:
raises `AttributeError` on every other value. -/
def asDict : PyValue → Except String PyDict
  | .dict d => .ok d
  | _ => .error "AttributeError: value has no attribute get"

/-- A value in a position where Python calls a `str` method: raises
`AttributeError` unless it is a string. -/
def asStr : PyValue → Except String String
  | .str s => .ok s
  | _ => .error "AttributeError: value has no attribute lower"

/-! ### Python string primitives -/

/-- Lexicographic comparison of code-point sequences: the ordering
Python uses for `str` comparison and `sorted`. -/
def lexLe : List Char → List Char → Bool
  | [], _ => true
  | _ :: _, [] => false
  | c :: cs, d :: ds => if c < d then true else if d < c then false else lexLe cs ds

/-- Python `a <= b` on strings, as a proposition. -/
def pyLe (a b : String) : Prop := lexLe a.data b.data = true

instance : DecidableRel pyLe := fun a b => by unfold pyLe; infer_instance

/-- Python `sorted` on a list of strings.  Any correct sort of a totally
ordered list of strings yields the same list, so insertion sort stands in
for timsort. -/
def pySortStrings (l : List String) : List String := List.insertionSort pyLe l

/-- Python `needle in hay` on code-point sequences (contiguous
substring). -/
def listContainsSub : List Char → List Char → Bool
  | hay, needle =>
    needle.isPrefixOf hay ||
      (match hay with
       | [] => false
       | _ :: t => listContainsSub t needle)

/-- Python `needle in hay` on strings. -/
def strContainsSub (hay needle : String) : Bool :=
  listContainsSub hay.data needle.data

/-- Python `s.lower()` (ASCII case fold; the denylist markers scanned by
the PHI check are all ASCII). -/
def pyLower (s : String) : String := ⟨s.data.map Char.toLower⟩

/-! ### rubric_loader.py -/

/-- `RubricCheck` dataclass of rubric_loader.py. -/
structure RubricCheck where
  id : String
  description : String
  check_type : String
  severity : String
  gate : String
  required_fixes : List String
  scoring : Option PyDict := Option.none

/-- `RubricSuite` dataclass of rubric_loader.py. -/
structure RubricSuite where
  id : String
  tier : Int
  version : String
  purpose : String
  checks : List RubricCheck

/-- One `tier{N}/` subdirectory of the rubrics directory as
`load_all_rubrics` observes it: `Option.none` when `tier_path.exists()`
is false, otherwise the `*.yaml` files (in glob order) each carrying the
outcome of `load_rubric_file` on it — `.ok` a parsed suite, `.error` the
`ValueError`/parse exception text.  The YAML parsing and jsonschema
validation inside `load_rubric_file` are external libraries and are
abstracted into that per-file outcome. -/
abbrev TierDirFS := Option (List (String × Except String RubricSuite))

/-- The three `tier1/ tier2/ tier3/` subdirectories of a requested
rubrics directory. -/
structure RubricsDirFS where
  tier1 : TierDirFS
  tier2 : TierDirFS
  tier3 : TierDirFS

/-- The catalog `load_all_rubrics` returns: the dict
`{1: [...], 2: [...], 3: [...]}` keyed by tier. -/
structure RubricsByTier where
  t1 : List RubricSuite
  t2 : List RubricSuite
  t3 : List RubricSuite

/-- `rubrics_by_tier.get(tier, [])`. -/
def RubricsByTier.suites (r : RubricsByTier) : Int → List RubricSuite
  | 1 => r.t1
  | 2 => r.t2
  | 3 => r.t3
  | _ => []

/-- The loop body of `load_all_rubrics` for a single tier directory:
a missing directory is skipped (`continue`), and each file that fails to
load is skipped with a printed warning (`except Exception`), collected
here as the second component. -/
def loadTierDir : TierDirFS → List RubricSuite × List String
  | Option.none => ([], [])
  | some files =>
      files.foldl
        (fun acc file =>
          match file.2 with
          | .ok suite => (acc.1 ++ [suite], acc.2)
          | .error e =>
              (acc.1, acc.2 ++ ["Warning: Failed to load " ++ file.1 ++ ": " ++ e]))
        ([], [])

/-- `load_all_rubrics`: loads every tier directory.  The body raises no
exception of its own (the per-file `try/except` swallows load errors and
a missing tier directory is skipped), which the `Except` result type
makes explicit.  The warnings Python prints to stdout are returned as the
second component. -/
def load_all_rubrics (fs : RubricsDirFS) :
    Except String (RubricsByTier × List String) :=
  let (s1, w1) := loadTierDir fs.tier1
  let (s2, w2) := loadTierDir fs.tier2
  let (s3, w3) := loadTierDir fs.tier3
  .ok (⟨s1, s2, s3⟩, w1 ++ w2 ++ w3)

/-- `get_rubric_versions`: suite_id → version over all loaded suites,
tiers iterated in dict insertion order 1, 2, 3. -/
def get_rubric_versions (fs : RubricsDirFS) :
    Except String (List (String × String)) := do
  let (r, _) ← load_all_rubrics fs
  .ok ((r.t1 ++ r.t2 ++ r.t3).foldl
        (fun acc s => assocInsert acc s.id s.version) [])

/-! ### evaluator.py — check results and single-check evaluation -/

/-- Numeric view of a Python value for `>=` and `:.2f`: ints, floats and
bools (Python bools are ints) coerce; everything else does not. -/
def pyToNum : PyValue → Option Rat
  | .int n => some (mkRat n 1)
  | .num q => some q
  | .bool b => some (if b then 1 else 0)
  | _ => Option.none

/-- Python `a >= b`: numeric comparison with coercion, string-string
lexicographic comparison, `TypeError` otherwise. -/
def pyGE (a b : PyValue) : Except String Bool :=
  match pyToNum a, pyToNum b with
  | some x, some y => .ok (decide (y ≤ x))
  | _, _ =>
    match a, b with
    | .str x, .str y => .ok (lexLe y.data x.data)
    | _, _ => .error "TypeError: unsupported operand types for comparison"

/-- Two-decimal fixed-point rendering of a rational, standing in for
Python's `f"{x:.2f}"` (the exact decimal rendering of the binary float,
with its round-half-even tie rule, is abstracted; no claim in this
development inspects the rendered digits). -/
def fmtRat2 (q : Rat) : String :=
  let c : Int := (q * 100 + mkRat 1 2).floor
  let ip := c / 100
  let fp := (c % 100).natAbs
  toString ip ++ "." ++ (if fp < 10 then "0" else "") ++ toString fp

/-- Python `f"{v:.2f}"`: formats numbers, raises `ValueError` on other
values (reached only after the `>=` comparison succeeded). -/
def fmtPy2f (v : PyValue) : Except String String :=
  match pyToNum v with
  | some q => .ok (fmtRat2 q)
  | Option.none => .error "ValueError: unknown format code f for value"

/-- Python `str(v)` / f-string interpolation of a value, standing in for
the interpolation of `threshold` in the Jaccard message (the decimal
rendering of a float repr is abstracted to the rational's rendering). -/
def pyRepr : PyValue → String
  | .str s => s
  | .int n => toString n
  | .num q => toString q
  | .bool b => if b then "True" else "False"
  | .none => "None"
  | .dict _ => "\x7b...\x7d"

/-- `CheckResult` dataclass of evaluator.py. -/
structure CheckResult where
  id : String
  passed : Bool
  score : Option PyValue := Option.none
  threshold : Option PyValue := Option.none
  message : Option String := Option.none
  deriving Repr

/-- The lazy `all(f.get("unit") for f in features.values())`: walks the
feature values in order, stops at the first falsy unit, raises
`AttributeError` when a feature reached before that is not a dict. -/
def allHaveUnits : List PyValue → Except String Bool
  | [] => .ok true
  | f :: fs => do
      let d ← asDict f
      if pyTruthy (pyGetOr d "unit") then allHaveUnits fs else .ok false

/-- The PHI substring denylist of `tier1.no_phi_in_artifacts`. -/
def phiMarkers : List String :=
  ["ssn", "social security", "patient name", "mrn", "medical record"]

/-- `RubricEvaluator.evaluate_check`: dispatch on the check id.  Python
raises out of this method on ill-typed inputs (there is no `try`), which
the `Except` layer records: an `.error` result is an uncaught Python
exception. -/
def evaluate_check (check : RubricCheck) (artifact context : PyDict) :
    Except String CheckResult := do
  let check_id := check.id
  if check_id == "tier1.determinism_required" then
    let has_executor := pyTruthy (pyGetOr artifact "deterministic_executor")
    let has_version := pyTruthy (pyGetOr artifact "version")
    let passed := has_executor && has_version
    return { id := check_id, passed,
             message := if passed then Option.none
                        else some "Missing deterministic_executor or version" }
  if check_id == "tier1.audit_trace_complete" then
    let provenance := (dictGet context "provenance").getD (.dict [])
    let d ← asDict provenance
    let has_trace := pyTruthy (pyGetOr d "audit_trace_id")
    return { id := check_id, passed := has_trace,
             message := if has_trace then Option.none
                        else some "Missing audit_trace_id in provenance" }
  if check_id == "tier1.no_phi_in_artifacts" then
    let inputs_summary := (dictGet artifact "inputs_summary").getD (.str "")
    let s ← asStr inputs_summary
    let has_phi_markers :=
      phiMarkers.any (fun m => strContainsSub (pyLower s) m)
    let passed := !has_phi_markers
    return { id := check_id, passed,
             message := if passed then Option.none
                        else some "Potential PHI detected in inputs_summary" }
  if check_id == "tier1.no_outcome_claims_without_validation" then
    return { id := check_id, passed := true,
             message := some "Policy check - requires human review" }
  if check_id == "tier2.unit_consistency" then
    let features := (dictGet context "features").getD (.dict [])
    let all_have_units ←
      if pyTruthy features then do
        let d ← asDict features
        allHaveUnits (d.map Prod.snd)
      else
        pure true
    return { id := check_id, passed := all_have_units,
             score := some (.num (if all_have_units then 1 else 0)),
             threshold := some (.num 1),
             message := if all_have_units then Option.none
                        else some "Some features missing unit declarations" }
  if check_id == "tier2.plausible_ranges" then
    return { id := check_id, passed := true,
             score := some (.num 1), threshold := some (.num (mkRat 19 20)) }
  if check_id == "tier2.temporal_coherence" then
    let has_index_time := pyTruthy (pyGetOr context "index_time")
    return { id := check_id, passed := has_index_time,
             message := if has_index_time then Option.none
                        else some "Missing index_time for temporal coherence check" }
  if check_id == "tier2.outcome_leakage_prevention" then
    let has_leakage := (dictGet context "has_outcome_leakage").getD (.bool false)
    return { id := check_id, passed := !pyTruthy has_leakage,
             message := if pyTruthy has_leakage then some "Outcome leakage detected"
                        else Option.none }
  if check_id == "tier3.sql_executes" then
    let sql_executed := (dictGet context "sql_executed").getD (.bool false)
    -- Python stores the raw context value in `passed`; every use of the
    -- field downstream is in boolean position, so its truthiness is kept.
    return { id := check_id, passed := pyTruthy sql_executed,
             message := if pyTruthy sql_executed then Option.none
                        else some "SQL did not execute successfully" }
  if check_id == "tier3.cohort_overlap_jaccard" then
    let jaccard := (dictGet context "cohort_jaccard").getD (.num 0)
    let thresholdV :=
      match check.scoring with
      | some sc => (dictGet sc "threshold").getD (.num (mkRat 7 10))
      | Option.none => .num (mkRat 7 10)
    let passed ← pyGE jaccard thresholdV
    let jtxt ← fmtPy2f jaccard
    return { id := check_id, passed,
             score := some jaccard, threshold := some thresholdV,
             message := some ("Jaccard " ++ jtxt ++ " " ++
               (if passed then "≥" else "<") ++ " " ++ pyRepr thresholdV) }
  return { id := check_id, passed := true,
           message := some ("Unknown check " ++ check_id ++ " - defaulting to pass") }

/-! ### evaluator.py — tiers, gate decision, evaluation -/

/-- `TierResult` dataclass of evaluator.py. -/
structure TierResult where
  tier : Int
  passed : Bool
  checks : List CheckResult
  deriving Repr

/-- One serialized check inside `TierResult.to_dict`: `score` and
`threshold` are emitted iff not `None`, `message` iff truthy (so an
empty-string message is dropped too). -/
structure CheckDict where
  id : String
  pass : Bool
  score : Option PyValue
  threshold : Option PyValue
  message : Option String
  deriving Repr

/-- The dict shape produced by `TierResult.to_dict`. -/
structure TierDict where
  pass : Bool
  checks : List CheckDict
  deriving Repr

/-- `TierResult.to_dict`. -/
def TierResult.toDict (t : TierResult) : TierDict :=
  { pass := t.passed,
    checks := t.checks.map fun c =>
      { id := c.id, pass := c.passed, score := c.score, threshold := c.threshold,
        message :=
          match c.message with
          | some m => if m == "" then Option.none else some m
          | Option.none => Option.none } }

/-- `GateDecision` dataclass of evaluator.py. -/
structure GateDecision where
  decision : String
  blocking_reasons : List String
  required_fixes : List String
  deferral_recommended : Bool := false
  deferral_to : Option String := Option.none
  deriving Repr

/-- The nested `deferral` object of `GateDecision.to_dict`. -/
structure DeferralDict where
  recommended : Bool
  «to» : String
  deriving Repr, DecidableEq

/-- The dict shape produced by `GateDecision.to_dict`. -/
structure GateDecisionDict where
  decision : String
  blocking_reasons : List String
  required_fixes : List String
  deferral : DeferralDict
  deriving Repr, DecidableEq

/-- `GateDecision.to_dict`: note `self.deferral_to or "human_review"`,
Python `or` falling through on the falsy values `None` and `""`. -/
def GateDecision.toDict (g : GateDecision) : GateDecisionDict :=
  { decision := g.decision,
    blocking_reasons := g.blocking_reasons,
    required_fixes := g.required_fixes,
    deferral :=
      { recommended := g.deferral_recommended,
        «to» :=
          match g.deferral_to with
          | some s => if s == "" then "human_review" else s
          | Option.none => "human_review" } }

/-- `RubricEvaluator.evaluate_tier`: every check of every suite of the
tier, in suite order then check order; the tier passes iff all checks
passed (an empty tier passes vacuously). -/
def evaluate_tier (rubrics : RubricsByTier) (tier : Int)
    (artifact context : PyDict) : Except String TierResult := do
  let suites := rubrics.suites tier
  let all_checks ←
    ((suites.map RubricSuite.checks).flatten).mapM
      (fun c => evaluate_check c artifact context)
  pure { tier := tier, passed := all_checks.all (·.passed), checks := all_checks }

/-- The `tier_results` dict built by `evaluate` (`{1: .., 2: .., 3: ..}`);
`Option` preserves the `tier_results.get(n)` / `n in tier_results`
behaviour of the consumers for dicts missing a tier. -/
structure TierResults where
  t1 : Option TierResult
  t2 : Option TierResult
  t3 : Option TierResult
  deriving Repr

/-- `EvaluationResult` dataclass of evaluator.py. -/
structure EvaluationResult where
  tier_results : TierResults
  gate_decision : GateDecision
  rubric_versions : List (String × String)
  deriving Repr

/-- The `blocking_reasons`/`required_fixes` contribution of one tier in
`_compute_gate_decision`: for a present, failed tier, one
`"Tier N violation: <id>"` per failing check, plus the check's message
when truthy. -/
def tierViolations (n : Int) : Option TierResult → List String × List String
  | Option.none => ([], [])
  | some tr =>
      if tr.passed then ([], [])
      else
        tr.checks.foldl
          (fun acc c =>
            if c.passed then acc
            else
              (acc.1 ++ ["Tier " ++ toString n ++ " violation: " ++ c.id],
               acc.2 ++
                 match c.message with
                 | some m => if m == "" then [] else [m]
                 | Option.none => []))
          ([], [])

/-- `tier is None or tier.passed`. -/
def tierPassedOrAbsent : Option TierResult → Bool
  | Option.none => true
  | some tr => tr.passed

/-- `RubricEvaluator._compute_gate_decision`. -/
def compute_gate_decision (t1 t2 t3 : Option TierResult) : GateDecision :=
  let (r1, f1) := tierViolations 1 t1
  let (r2, f2) := tierViolations 2 t2
  let (r3, f3) := tierViolations 3 t3
  let blocking_reasons := r1 ++ r2 ++ r3
  let required_fixes := f1 ++ f2 ++ f3
  let tier1_passed := tierPassedOrAbsent t1
  let tier2_passed := tierPassedOrAbsent t2
  let tier3_passed := tierPassedOrAbsent t3
  let (decision, deferral_recommended) :=
    if !tier1_passed then ("block", true)
    else if !tier2_passed then ("block", true)
    else if !tier3_passed then ("revise", false)
    else ("approve", false)
  { decision, blocking_reasons, required_fixes, deferral_recommended,
    deferral_to := if deferral_recommended then some "human_review" else Option.none }

/-- The `rubric_versions` loop of `RubricEvaluator.evaluate`: for each
tier (dict order 1, 2, 3) and each suite of the tier,
`rubric_versions[f"tier{tier}"] = suite.version`. -/
def evalRubricVersions (rubrics : RubricsByTier) : List (String × String) :=
  let step := fun (acc : List (String × String)) (tier : Int)
      (suites : List RubricSuite) =>
    suites.foldl (fun a s => assocInsert a ("tier" ++ toString tier) s.version) acc
  step (step (step [] 1 rubrics.t1) 2 rubrics.t2) 3 rubrics.t3

/-- `RubricEvaluator.evaluate`: all three tiers, the gate decision, and
the (tier-keyed) rubric-version map. -/
def evaluate (rubrics : RubricsByTier) (artifact context : PyDict) :
    Except String EvaluationResult :=
  match evaluate_tier rubrics 1 artifact context with
  | .error e => .error e
  | .ok t1 =>
    match evaluate_tier rubrics 2 artifact context with
    | .error e => .error e
    | .ok t2 =>
      match evaluate_tier rubrics 3 artifact context with
      | .error e => .error e
      | .ok t3 =>
          .ok { tier_results := ⟨some t1, some t2, some t3⟩,
                gate_decision := compute_gate_decision (some t1) (some t2) (some t3),
                rubric_versions := evalRubricVersions rubrics }

/-! ### evaluator.py — create_certificate -/

/-- The certificate dict built by `create_certificate` (fixed keys, so a
record; the `provenance` value is a Python dict built with `**` splat and
stays an association list). -/
structure Certificate where
  certificate_id : String
  created_at : String
  artifact : PyDict
  rubrics_tier_1 : TierDict
  rubrics_tier_2 : TierDict
  rubrics_tier_3 : TierDict
  gate_decision : GateDecisionDict
  provenance : PyDict
  deriving Repr

/-- The `rubric_versions` map embedded into certificate provenance. -/
def versionsToPy (m : List (String × String)) : PyValue :=
  .dict (m.map fun p => (p.1, .str p.2))

/-- `evaluation.tier_results[n].to_dict() if n in evaluation.tier_results
else {"pass": True, "checks": []}`. -/
def tierDictOrDefault : Option TierResult → TierDict
  | some t => t.toDict
  | Option.none => { pass := true, checks := [] }

/-- `create_certificate`.  `uuid.uuid4()` and `datetime.now(...)` are the
two nondeterministic inputs; they enter as the explicit parameters
`certificate_id` and `now`.  The provenance block starts from the literal
`{audit_trace_id, run_manifest_id, rubric_versions}` and then splats in
every other caller-supplied provenance key (`**{k: v ...}`), the splat
overriding an existing key in place per Python dict semantics. -/
def create_certificate (certificate_id now : String) (artifact : PyDict)
    (evaluation : EvaluationResult) (provenance : PyDict) : Certificate :=
  let va := (dictGet provenance "audit_trace_id").getD
      (.str ("trace_" ++ certificate_id))
  let vr := (dictGet provenance "run_manifest_id").getD
      (.str ("manifest_" ++ certificate_id))
  let base : PyDict :=
    [("audit_trace_id", va), ("run_manifest_id", vr),
     ("rubric_versions", versionsToPy evaluation.rubric_versions)]
  let extras := provenance.filter
      (fun kv => !(kv.1 == "audit_trace_id" || kv.1 == "run_manifest_id"))
  { certificate_id := certificate_id,
    created_at := now,
    artifact := artifact,
    rubrics_tier_1 := tierDictOrDefault evaluation.tier_results.t1,
    rubrics_tier_2 := tierDictOrDefault evaluation.tier_results.t2,
    rubrics_tier_3 := tierDictOrDefault evaluation.tier_results.t3,
    gate_decision := evaluation.gate_decision.toDict,
    provenance := extras.foldl (fun d kv => assocInsert d kv.1 kv.2) base }

/-! ### verify.py -/

/-- `VerifyResult` dataclass of verify.py. -/
structure VerifyResult where
  is_valid : Bool
  errors : List String
  deriving Repr, DecidableEq

/-- Modelled from the spec: `schemas/certificate.schema.json` is not
under src/; §6 gives the certificate wire contract it validates —
`certificate_id` a string, `created_at` a string, and `artifact`,
`rubrics`, `gate_decision`, `provenance` objects. -/
def certificateSchemaOk (cert : PyDict) : Bool :=
  (match dictGet cert "certificate_id" with | some (.str _) => true | _ => false) &&
  (match dictGet cert "created_at" with | some (.str _) => true | _ => false) &&
  (match dictGet cert "artifact" with | some (.dict _) => true | _ => false) &&
  (match dictGet cert "rubrics" with | some (.dict _) => true | _ => false) &&
  (match dictGet cert "gate_decision" with | some (.dict _) => true | _ => false) &&
  (match dictGet cert "provenance" with | some (.dict _) => true | _ => false)

/-- Modelled from the spec: the jsonschema validation pass of
`verify_certificate` (lines 62–68), whose schema file is not under src/.
Schema failures yield a non-empty location-sorted error list; the
individual messages are abstracted since every claim here conditions on
schema success. -/
def certificate_schema_errors (cert : PyDict) : List String :=
  if certificateSchemaOk cert then []
  else ["<root>: certificate does not conform to the certificate schema"]

/-- `verify_certificate` of verify.py.  `sha` abstracts
`_sha256_file`, and the supplied artifact path is modelled by the bytes
`artifactBytes` that would be read from it. -/
def verify_certificate (sha : String → String) (cert : PyDict)
    (artifactBytes : Option String) : Except String VerifyResult :=
  let errors := certificate_schema_errors cert
  if !errors.isEmpty then .ok { is_valid := false, errors }
  else
    match artifactBytes with
    | Option.none => .ok { is_valid := true, errors := [] }
    | some content =>
      match asDict ((dictGet cert "artifact").getD (.dict [])) with
      | .error e => .error e
      | .ok d =>
        match dictGet d "hash" with
        | some (.str s) =>
            if s == "" then
              .ok { is_valid := false,
                    errors := ["artifact.hash missing from certificate (required for --artifact verification)"] }
            else
              let actual := sha content
              if actual != s then
                .ok { is_valid := false,
                      errors := ["artifact hash mismatch",
                                 "expected: " ++ s,
                                 "actual:   " ++ actual] }
              else .ok { is_valid := true, errors := [] }
        | _ =>
            .ok { is_valid := false,
                  errors := ["artifact.hash missing from certificate (required for --artifact verification)"] }

/-! ### datasets/manifest.py -/

/-- `FileInfo` dataclass of manifest.py. -/
structure FileInfo where
  path : String
  size_bytes : Nat
  sha256 : String
  modified_at : String
  deriving Repr, DecidableEq

/-- `DatasetManifest` dataclass of manifest.py (the fields `save`/
`to_dict` serialize; only `files` and `root_hash` drive verification). -/
structure DatasetManifest where
  dataset_id : String
  version : String
  created_at : String
  created_by : String
  source : String
  total_files : Nat
  total_size_bytes : Nat
  root_hash : String
  files : List FileInfo
  metadata : PyDict
  deriving Repr

/-- One pass of the `while len(...) > 1` loop of `_compute_merkle_root`:
pairwise concatenate-and-rehash, the last element of an odd-length level
paired with itself. -/
def nextLevel (sha : String → String) : List String → List String
  | [] => []
  | [a] => [sha (a ++ a)]
  | a :: b :: rest => sha (a ++ b) :: nextLevel sha rest

/-- The `while len(sorted_hashes) > 1` loop, run on explicit fuel (the
lemma `merkleLevels_length_le_one` shows the fuel used by
`_compute_merkle_root` always suffices, so this is the unbounded loop). -/
def merkleLevels (sha : String → String) : Nat → List String → List String
  | 0, l => l
  | fuel + 1, l => if l.length ≤ 1 then l else merkleLevels sha fuel (nextLevel sha l)

/-- `_compute_merkle_root`: the hash of the empty byte string for an
empty list, otherwise sort the hashes and fold levels until one root
remains (`sorted_hashes[0]` on the final singleton). -/
def _compute_merkle_root (sha : String → String) (hashes : List String) : String :=
  if hashes.isEmpty then sha ""
  else
    let sorted := pySortStrings hashes
    (merkleLevels sha sorted.length sorted).headD ""

/-- The root-hash computation of `create_manifest` (lines 203–204): the
Merkle root of the per-file content hashes, in file-enumeration order. -/
def manifestRootHash (sha : String → String) (files : List FileInfo) : String :=
  _compute_merkle_root sha (files.map FileInfo.sha256)

/-- A dataset directory as `verify_manifest` observes it: relative path →
file bytes (modelled as a string; `stat().st_size` is its length). -/
abbrev DatasetDir := List (String × String)

/-- `verify_manifest` of manifest.py: per-file existence, size and hash
checks (short-circuiting per file), then the root recomputed from the
hashes of the manifest-listed files that are currently present, compared
against `manifest.root_hash`.  `sha` abstracts `_compute_sha256`.
`verifyFileStep` is the body of the per-file loop: existence, then size,
then hash, short-circuiting at the first failing check. -/
def verifyFileStep (sha : String → String) (dir : DatasetDir)
    (errs : List String) (fi : FileInfo) : List String :=
  match dictGet dir fi.path with
  | Option.none => errs ++ ["Missing file: " ++ fi.path]
  | some content =>
      if content.length != fi.size_bytes then
        errs ++ ["Size mismatch for " ++ fi.path ++ ": expected " ++
                 toString fi.size_bytes ++ ", got " ++ toString content.length]
      else if sha content != fi.sha256 then
        errs ++ ["Hash mismatch for " ++ fi.path]
      else errs

def verify_manifest (sha : String → String) (manifest : DatasetManifest)
    (dir : DatasetDir) : Bool × List String :=
  let perFile := manifest.files.foldl (verifyFileStep sha dir) []
  let current_hashes :=
    manifest.files.filterMap (fun fi => (dictGet dir fi.path).map sha)
  let current_root := _compute_merkle_root sha current_hashes
  let errors :=
    if current_root != manifest.root_hash then
      perFile ++ ["Merkle root mismatch: expected " ++ manifest.root_hash ++
                  ", got " ++ current_root]
    else perFile
  (errors.isEmpty, errors)

/-! ### Association-list lemmas (Python dict semantics) -/

theorem dictGet_assocInsert_self {α : Type} (d : List (String × α)) (k : String) (v : α) :
    dictGet (assocInsert d k v) k = some v := by
  induction d with
  | nil => simp [assocInsert, dictGet]
  | cons kv rest ih =>
      by_cases h : kv.1 == k
      · cases kv; simp_all [assocInsert, dictGet]
      · cases kv; simp_all [assocInsert, dictGet]

theorem dictGet_assocInsert_ne {α : Type} (d : List (String × α)) (k' k : String)
    (v : α) (h : k' ≠ k) : dictGet (assocInsert d k' v) k = dictGet d k := by
  induction d with
  | nil => simp [assocInsert, dictGet, h]
  | cons kv rest ih =>
      by_cases hk : kv.1 == k'
      · cases kv; simp_all [assocInsert, dictGet]
      · cases kv; simp_all [assocInsert, dictGet]

theorem dictGet_eq_none_of_keys {α : Type} (d : List (String × α)) (k : String)
    (h : ∀ kv ∈ d, kv.1 ≠ k) : dictGet d k = Option.none := by
  induction d with
  | nil => rfl
  | cons kv rest ih =>
      cases kv with
      | mk k' v =>
          have h1 : k' ≠ k := h (k', v) (by simp)
          simp [dictGet, h1]
          exact ih fun kv hkv => h kv (by simp [hkv])

/-- Looking a key up after splatting `es` into `d` with repeated
`d[k] = v`: when the keys of `es` are unique (they come from a Python
dict), a key of `es` gets its `es` value and any other key falls through
to `d`. -/
theorem dictGet_foldl_assocInsert {α : Type} (es : List (String × α)) (d : List (String × α))
    (k : String) (hnd : (es.map Prod.fst).Nodup) :
    dictGet (es.foldl (fun acc kv => assocInsert acc kv.1 kv.2) d) k =
      match dictGet es k with
      | some v => some v
      | Option.none => dictGet d k := by
  induction es generalizing d with
  | nil => simp [dictGet]
  | cons e rest ih =>
      cases e with
      | mk ek ev =>
          simp only [List.map_cons, List.nodup_cons] at hnd
          by_cases hk : ek = k
          · subst hk
            have hnone : dictGet rest ek = Option.none :=
              dictGet_eq_none_of_keys rest ek
                (fun kv hkv hq => hnd.1 (hq ▸ List.mem_map_of_mem Prod.fst hkv))
            simp [List.foldl_cons, ih _ hnd.2, dictGet, hnone,
                  dictGet_assocInsert_self]
          · simp [List.foldl_cons, ih _ hnd.2, dictGet, hk,
                  dictGet_assocInsert_ne _ _ _ _ hk, beq_iff_eq]

/-- A key every element of the list avoids falls through a splat-fold
even without uniqueness of the keys. -/
theorem dictGet_foldl_assocInsert_miss {α : Type} (es : List (String × α))
    (d : List (String × α)) (k : String) (h : ∀ kv ∈ es, kv.1 ≠ k) :
    dictGet (es.foldl (fun acc kv => assocInsert acc kv.1 kv.2) d) k = dictGet d k := by
  induction es generalizing d with
  | nil => rfl
  | cons e rest ih =>
      have he : e.1 ≠ k := h e (by simp)
      simp only [List.foldl_cons]
      rw [ih _ fun kv hkv => h kv (by simp [hkv]),
          dictGet_assocInsert_ne _ _ _ _ he]

/-- Filtering on a predicate that holds for every pair with key `k`
preserves the first-match lookup of `k`. -/
theorem dictGet_filter_of_pred {α : Type} (p : String × α → Bool)
    (d : List (String × α)) (k : String) (hp : ∀ v, p (k, v) = true) :
    dictGet (d.filter p) k = dictGet d k := by
  induction d with
  | nil => rfl
  | cons kv rest ih =>
      cases kv with
      | mk k' v =>
          by_cases hk : k' = k
          · subst hk; simp [List.filter_cons, hp v, dictGet, ih]
          · by_cases hpv : p (k', v)
            · simp [List.filter_cons, hpv, dictGet, hk, ih]
            · simp [List.filter_cons, hpv, dictGet, hk, ih]

/-- Absent keys stay absent through a filter. -/
theorem dictGet_filter_none {α : Type} (p : String × α → Bool)
    (d : List (String × α)) (k : String) (h : dictGet d k = Option.none) :
    dictGet (d.filter p) k = Option.none := by
  induction d with
  | nil => rfl
  | cons kv rest ih =>
      cases kv with
      | mk k' v =>
          by_cases hk : k' = k
          · subst hk; simp [dictGet] at h
          · have h' : dictGet rest k = Option.none := by simpa [dictGet, hk] using h
            by_cases hpv : p (k', v) <;> simp [List.filter_cons, hpv, dictGet, hk, ih h']

/-- Inserting an absent key appends it (Python dict insertion order). -/
theorem assocInsert_eq_append {α : Type} (d : List (String × α)) (k : String) (v : α)
    (h : dictGet d k = Option.none) : assocInsert d k v = d ++ [(k, v)] := by
  induction d with
  | nil => rfl
  | cons kv rest ih =>
      cases kv with
      | mk k' v' =>
          by_cases hk : k' = k
          · subst hk; simp [dictGet] at h
          · have h' : dictGet rest k = Option.none := by simpa [dictGet, hk] using h
            simp [assocInsert, hk, ih h']

/-- Re-assigning the same key keeps only the last value. -/
theorem assocInsert_assocInsert {α : Type} (d : List (String × α)) (k : String) (v w : α) :
    assocInsert (assocInsert d k v) k w = assocInsert d k w := by
  induction d with
  | nil => simp [assocInsert]
  | cons kv rest ih =>
      cases kv with
      | mk k' v' =>
          by_cases hk : k' = k <;> simp [assocInsert, hk, ih]

/-! ### Python string-order lemmas -/

theorem lexLe_total : ∀ a b : List Char, lexLe a b = true ∨ lexLe b a = true
  | [], _ => Or.inl rfl
  | _ :: _, [] => Or.inr rfl
  | c :: cs, d :: ds => by
      by_cases h1 : c < d
      · left; simp [lexLe, h1]
      · by_cases h2 : d < c
        · right; simp [lexLe, h2]
        · have hcd : c = d := le_antisymm (not_lt.mp h2) (not_lt.mp h1)
          subst hcd
          rcases lexLe_total cs ds with h | h
          · left; simp [lexLe, h]
          · right; simp [lexLe, h]

theorem lexLe_trans : ∀ a b c : List Char,
    lexLe a b = true → lexLe b c = true → lexLe a c = true
  | [], _, _ => by intro _ _; rfl
  | _ :: _, [], _ => by intro h _; simp [lexLe] at h
  | _ :: _, _ :: _, [] => by intro _ h; simp [lexLe] at h
  | x :: xs, y :: ys, z :: zs => by
      intro h1 h2
      by_cases hxy : x < y
      · by_cases hyz : y < z
        · simp [lexLe, lt_trans hxy hyz]
        · by_cases hzy : z < y
          · simp [lexLe, hyz, hzy] at h2
          · have : y = z := le_antisymm (not_lt.mp hzy) (not_lt.mp hyz)
            subst this; simp [lexLe, hxy]
      · by_cases hyx : y < x
        · simp [lexLe, hxy, hyx] at h1
        · have hxy' : x = y := le_antisymm (not_lt.mp hyx) (not_lt.mp hxy)
          subst hxy'
          simp only [lexLe, if_neg hxy, if_neg hyx] at h1
          by_cases hyz : x < z
          · simp [lexLe, hyz]
          · by_cases hzy : z < x
            · simp [lexLe, hyz, hzy] at h2
            · have : x = z := le_antisymm (not_lt.mp hzy) (not_lt.mp hyz)
              subst this
              simp only [lexLe, if_neg hyz, if_neg hzy] at h2 ⊢
              exact lexLe_trans xs ys zs h1 h2

theorem lexLe_antisymm : ∀ a b : List Char,
    lexLe a b = true → lexLe b a = true → a = b
  | [], [] => by intro _ _; rfl
  | [], _ :: _ => by intro _ h; simp [lexLe] at h
  | _ :: _, [] => by intro h _; simp [lexLe] at h
  | x :: xs, y :: ys => by
      intro h1 h2
      by_cases hxy : x < y
      · simp [lexLe, hxy, asymm hxy] at h2
      · by_cases hyx : y < x
        · simp [lexLe, hxy, hyx] at h1
        · have hx : x = y := le_antisymm (not_lt.mp hyx) (not_lt.mp hxy)
          subst hx
          simp only [lexLe, if_neg hxy, if_neg hyx] at h1 h2
          rw [lexLe_antisymm xs ys h1 h2]

instance : IsTotal String pyLe := ⟨fun a b => lexLe_total a.data b.data⟩

instance : IsTrans String pyLe := ⟨fun a b c => lexLe_trans a.data b.data c.data⟩

instance : IsAntisymm String pyLe :=
  ⟨fun a b h1 h2 => String.ext (lexLe_antisymm a.data b.data h1 h2)⟩

theorem pySortStrings_perm (l : List String) : (pySortStrings l).Perm l :=
  List.perm_insertionSort pyLe l

theorem pySortStrings_sorted (l : List String) : List.Sorted pyLe (pySortStrings l) :=
  List.sorted_insertionSort pyLe l

/-- Two permutations of the same multiset of strings sort identically:
the uniqueness of sorted orders under a total antisymmetric relation. -/
theorem pySortStrings_eq_of_perm {l1 l2 : List String} (h : l1.Perm l2) :
    pySortStrings l1 = pySortStrings l2 :=
  List.eq_of_perm_of_sorted
    ((pySortStrings_perm l1).trans (h.trans (pySortStrings_perm l2).symm))
    (pySortStrings_sorted l1) (pySortStrings_sorted l2)

/-! ### Merkle-tree lemmas -/

theorem nextLevel_length (sha : String → String) :
    ∀ l : List String, (nextLevel sha l).length = (l.length + 1) / 2
  | [] => rfl
  | [_] => by simp [nextLevel]
  | _ :: _ :: rest => by
      simp only [nextLevel, List.length_cons, nextLevel_length sha rest]
      omega

/-- The fuel `_compute_merkle_root` hands to `merkleLevels` always
reaches the loop's exit condition `len(sorted_hashes) <= 1`, so the
fueled recursion is the unbounded `while` loop of the source. -/
theorem merkleLevels_length_le_one (sha : String → String) :
    ∀ (fuel : Nat) (l : List String), l.length ≤ fuel →
      (merkleLevels sha fuel l).length ≤ 1
  | 0, l, h => by
      simp only [merkleLevels]; omega
  | fuel + 1, l, h => by
      unfold merkleLevels
      by_cases h1 : l.length ≤ 1
      · simp [h1]
      · have hlen : (nextLevel sha l).length ≤ fuel := by
          rw [nextLevel_length]; omega
        simpa [h1] using merkleLevels_length_le_one sha fuel _ hlen

/-- `_compute_merkle_root` is invariant under permutation of its input:
the sort performed before tree construction erases the input order. -/
theorem merkle_root_perm (sha : String → String) {l1 l2 : List String}
    (h : l1.Perm l2) :
    _compute_merkle_root sha l1 = _compute_merkle_root sha l2 := by
  unfold _compute_merkle_root
  have hlen := h.length_eq
  have hemp : l1.isEmpty = l2.isEmpty := by
    cases l1 <;> cases l2 <;> simp_all
  rw [hemp, pySortStrings_eq_of_perm h]

/-- At each tree level, the trailing element of an odd-length level is
concatenated with itself before rehashing. -/
theorem nextLevel_append_single (sha : String → String) :
    ∀ (l : List String) (a : String), l.length % 2 = 0 →
      nextLevel sha (l ++ [a]) = nextLevel sha l ++ [sha (a ++ a)]
  | [], a, _ => by simp [nextLevel]
  | [_], a, h => by simp at h
  | x :: y :: rest, a, h => by
      have h' : rest.length % 2 = 0 := by simp [List.length_cons] at h; omega
      simp [nextLevel, nextLevel_append_single sha rest a h']

/-- C5: `_compute_merkle_root` sorts the hash list before folding the
tree, so the root is invariant under every permutation of the list, and
`create_manifest`'s `root_hash` (the Merkle root of the per-file hashes,
lines 203–204 of manifest.py) is likewise invariant under the file
enumeration order; the empty list yields the digest of the empty byte
sequence; and at each tree level the trailing hash of an odd-length
level is paired with itself. -/
theorem merkle_root_properties :
    (∀ (sha : String → String) (l1 l2 : List String), l1.Perm l2 →
      _compute_merkle_root sha l1 = _compute_merkle_root sha l2) ∧
    (∀ sha : String → String, _compute_merkle_root sha [] = sha "") ∧
    (∀ (sha : String → String) (l : List String) (a : String),
      l.length % 2 = 0 →
      nextLevel sha (l ++ [a]) = nextLevel sha l ++ [sha (a ++ a)]) ∧
    (∀ (sha : String → String) (files1 files2 : List FileInfo), files1.Perm files2 →
      manifestRootHash sha files1 = manifestRootHash sha files2) :=
  ⟨fun sha _ _ h => merkle_root_perm sha h,
   fun _ => rfl,
   nextLevel_append_single,
   fun sha _ _ h => merkle_root_perm sha (h.map FileInfo.sha256)⟩

/-- A concrete stand-in digest function for witnesses. -/
def shaEx (s : String) : String := "h(" ++ s ++ ")"

/-- Witness for C5 at concrete inputs. -/
theorem merkle_root_properties_w :
    _compute_merkle_root shaEx ["b", "a", "c"] = _compute_merkle_root shaEx ["a", "c", "b"] ∧
    nextLevel shaEx (["x", "y"] ++ ["z"]) = nextLevel shaEx ["x", "y"] ++ [shaEx ("z" ++ "z")] ∧
    manifestRootHash shaEx [⟨"a", 1, "ha", "m"⟩, ⟨"b", 1, "hb", "m"⟩] =
      manifestRootHash shaEx [⟨"b", 1, "hb", "m"⟩, ⟨"a", 1, "ha", "m"⟩] :=
  ⟨merkle_root_properties.1 shaEx _ _ (by decide),
   merkle_root_properties.2.2.1 shaEx ["x", "y"] "z" (by decide),
   merkle_root_properties.2.2.2 shaEx _ _ (by decide)⟩

/-! ### C6 — verify_manifest and extra files -/

/-- The manifest of the one-file dataset `{a ↦ "x"}` under `shaEx`
(root hash of the singleton hash list is that hash itself). -/
def exManifest : DatasetManifest :=
  ⟨"ds", "1.0", "t", "c", "s", 1, 1, "h(x)", [⟨"a", 1, "h(x)", "m"⟩], []⟩

/-- C6 counterexample: a directory containing an extra file `b` that the
manifest does not list, while the single listed file matches, is
reported valid with no errors — the recomputed root ranges only over
manifest-listed files, so the claimed root-mismatch for extra files does
not occur. -/
theorem verify_manifest_extra_file_counterexample :
    verify_manifest shaEx exManifest [("a", "x"), ("b", "y")] = (true, []) := by
  decide

/-- Appending an entry with a fresh key does not change any lookup of a
different key. -/
theorem dictGet_append_single {α : Type} (d : List (String × α)) (p k : String)
    (c : α) (h : k ≠ p) : dictGet (d ++ [(p, c)]) k = dictGet d k := by
  induction d with
  | nil =>
      simp [dictGet]
      exact fun hq => h hq.symm
  | cons kv rest ih =>
      cases kv with
      | mk k' v => by_cases hk : k' = k <;> simp [dictGet, hk, ih]

/-- The per-file loop only reads the paths listed in the manifest, so a
directory entry with an unlisted path is invisible to it. -/
theorem foldl_verifyFileStep_congr (sha : String → String) (dir : DatasetDir)
    (p : String) (c : String) :
    ∀ (files : List FileInfo) (errs : List String),
      (∀ fi ∈ files, fi.path ≠ p) →
      files.foldl (verifyFileStep sha (dir ++ [(p, c)])) errs =
        files.foldl (verifyFileStep sha dir) errs
  | [], _, _ => rfl
  | fi :: rest, errs, h => by
      have hfi : fi.path ≠ p := h fi (by simp)
      simp only [List.foldl_cons]
      rw [show verifyFileStep sha (dir ++ [(p, c)]) errs fi =
            verifyFileStep sha dir errs fi by
            unfold verifyFileStep; rw [dictGet_append_single dir p fi.path c hfi],
          foldl_verifyFileStep_congr sha dir p c rest _
            fun fi' h' => h fi' (by simp [h'])]

/-- Each step of the per-file loop only appends to the error list. -/
theorem verifyFileStep_suffix (sha : String → String) (dir : DatasetDir)
    (errs : List String) (fi : FileInfo) :
    ∃ e, verifyFileStep sha dir errs fi = errs ++ e := by
  unfold verifyFileStep
  cases hd : dictGet dir fi.path with
  | none => exact ⟨_, rfl⟩
  | some content =>
      dsimp only
      by_cases h1 : content.length != fi.size_bytes
      · rw [if_pos h1]; exact ⟨_, rfl⟩
      · rw [if_neg h1]
        by_cases h2 : sha content != fi.sha256
        · rw [if_pos h2]; exact ⟨_, rfl⟩
        · rw [if_neg h2]; exact ⟨[], by simp⟩

/-- The per-file loop only appends to the error list. -/
theorem foldl_verifyFileStep_suffix (sha : String → String) (dir : DatasetDir) :
    ∀ (files : List FileInfo) (errs : List String),
      ∃ suf, files.foldl (verifyFileStep sha dir) errs = errs ++ suf
  | [], errs => ⟨[], by simp⟩
  | fi :: rest, errs => by
      obtain ⟨e, he⟩ := verifyFileStep_suffix sha dir errs fi
      obtain ⟨suf, hsuf⟩ := foldl_verifyFileStep_suffix sha dir rest (errs ++ e)
      exact ⟨e ++ suf, by simp [List.foldl_cons, he, hsuf]⟩

/-- A manifest-listed file that is absent from the directory leaves a
non-empty per-file error list. -/
theorem foldl_verifyFileStep_missing (sha : String → String) (dir : DatasetDir)
    (files : List FileInfo) (fi : FileInfo) (hmem : fi ∈ files)
    (habs : dictGet dir fi.path = Option.none) :
    files.foldl (verifyFileStep sha dir) [] ≠ [] := by
  obtain ⟨s, t, rfl⟩ := List.append_of_mem hmem
  obtain ⟨suf0, hs⟩ := foldl_verifyFileStep_suffix sha dir s []
  have hstep : verifyFileStep sha dir suf0 fi = suf0 ++ ["Missing file: " ++ fi.path] := by
    unfold verifyFileStep; rw [habs]
  obtain ⟨suf1, ht⟩ :=
    foldl_verifyFileStep_suffix sha dir t (suf0 ++ ["Missing file: " ++ fi.path])
  intro hcontra
  rw [List.foldl_append, hs] at hcontra
  simp only [List.nil_append] at hcontra
  rw [List.foldl_cons, hstep, ht] at hcontra
  simp at hcontra

/-- C6 amended: `verify_manifest` recomputes the Merkle root only from
the hashes of the manifest-listed files that are currently present, not
from all files in the directory: a directory entry whose path no
manifest entry mentions is invisible to the whole verification, while a
missing manifest-listed file always makes the result invalid. -/
theorem verify_manifest_manifest_closure (sha : String → String)
    (manifest : DatasetManifest) (dir : DatasetDir) :
    (∀ p c, (∀ fi ∈ manifest.files, fi.path ≠ p) →
      verify_manifest sha manifest (dir ++ [(p, c)]) =
        verify_manifest sha manifest dir) ∧
    (∀ fi ∈ manifest.files, dictGet dir fi.path = Option.none →
      (verify_manifest sha manifest dir).1 = false) := by
  constructor
  · intro p c h
    unfold verify_manifest
    rw [foldl_verifyFileStep_congr sha dir p c manifest.files [] h,
        List.filterMap_congr
          fun fi hfi => by rw [dictGet_append_single dir p fi.path c (h fi hfi)]]
  · intro fi hmem habs
    have hne := foldl_verifyFileStep_missing sha dir manifest.files fi hmem habs
    unfold verify_manifest
    simp only []
    rcases hroot : (_compute_merkle_root sha
        (manifest.files.filterMap fun fi => (dictGet dir fi.path).map sha) !=
          manifest.root_hash) with _ | _
    · simpa [hroot, List.isEmpty_iff] using hne
    · simp [hroot, List.isEmpty_iff]

/-- Witness for C6 amended at concrete inputs: the extra file `b` does
not change the verification outcome, and a directory missing the listed
file is invalid. -/
theorem verify_manifest_manifest_closure_w :
    verify_manifest shaEx exManifest ([("a", "x")] ++ [("b", "y")]) =
      verify_manifest shaEx exManifest [("a", "x")] ∧
    (verify_manifest shaEx exManifest []).1 = false :=
  ⟨(verify_manifest_manifest_closure shaEx exManifest [("a", "x")]).1 "b" "y" (by decide),
   (verify_manifest_manifest_closure shaEx exManifest []).2 ⟨"a", 1, "h(x)", "m"⟩
     (by decide) rfl⟩

/-! ### C1 — gate decision policy -/

/-- C1: for every triple of tier results, `_compute_gate_decision`
blocks with a deferral to human review whenever tier 1 fails (whatever
tiers 2 and 3 did); blocks with a deferral when tier 1 passes and
tier 2 fails; revises without deferral when tiers 1 and 2 pass and
tier 3 fails; and approves when all three tiers pass. -/
theorem gate_decision_policy_cases (t1 t2 t3 : TierResult) :
    (t1.passed = false →
      (compute_gate_decision (some t1) (some t2) (some t3)).decision = "block" ∧
      (compute_gate_decision (some t1) (some t2) (some t3)).deferral_recommended = true ∧
      (compute_gate_decision (some t1) (some t2) (some t3)).deferral_to = some "human_review") ∧
    (t1.passed = true → t2.passed = false →
      (compute_gate_decision (some t1) (some t2) (some t3)).decision = "block" ∧
      (compute_gate_decision (some t1) (some t2) (some t3)).deferral_recommended = true) ∧
    (t1.passed = true → t2.passed = true → t3.passed = false →
      (compute_gate_decision (some t1) (some t2) (some t3)).decision = "revise" ∧
      (compute_gate_decision (some t1) (some t2) (some t3)).deferral_recommended = false) ∧
    (t1.passed = true → t2.passed = true → t3.passed = true →
      (compute_gate_decision (some t1) (some t2) (some t3)).decision = "approve") := by
  refine ⟨fun h1 => ?_, fun h1 h2 => ?_, fun h1 h2 h3 => ?_, fun h1 h2 h3 => ?_⟩ <;>
    simp [compute_gate_decision, tierPassedOrAbsent, h1]
  · simp [h2]
  · simp [h2, h3]
  · simp [h2, h3]

/-- Witness for C1 at a concrete failing tier 1. -/
theorem gate_decision_policy_cases_w :
    (compute_gate_decision (some ⟨1, false, []⟩) (some ⟨2, true, []⟩) (some ⟨3, true, []⟩)).decision = "block" ∧
    (compute_gate_decision (some ⟨1, false, []⟩) (some ⟨2, true, []⟩) (some ⟨3, true, []⟩)).deferral_recommended = true ∧
    (compute_gate_decision (some ⟨1, false, []⟩) (some ⟨2, true, []⟩) (some ⟨3, true, []⟩)).deferral_to = some "human_review" :=
  (gate_decision_policy_cases ⟨1, false, []⟩ ⟨2, true, []⟩ ⟨3, true, []⟩).1 rfl

/-! ### C10 — serialized deferral target -/

/-- C10: for every gate decision the evaluator can produce, the wire
form `to_dict` sets `deferral.to` to `"human_review"`, even when
`deferral_recommended` is false (for approve and revise the internal
`deferral_to` is `None`, and `self.deferral_to or "human_review"` falls
through to the default). -/
theorem gate_decision_to_dict_deferral (t1 t2 t3 : Option TierResult) :
    ((compute_gate_decision t1 t2 t3).toDict).deferral.«to» = "human_review" := by
  cases h1 : tierPassedOrAbsent t1 <;> cases h2 : tierPassedOrAbsent t2 <;>
    cases h3 : tierPassedOrAbsent t3 <;>
      simp [compute_gate_decision, GateDecision.toDict, h1, h2, h3]

/-! ### C2 — evaluate_check can raise -/

/-- A bare check definition carrying only an id, as the dispatch in
`evaluate_check` consumes it. -/
def mkCheck (i : String) : RubricCheck := ⟨i, "", "", "", "", [], Option.none⟩

/-- C2: contrary to the spec's no-throw contract, `evaluate_check` has
no exception handling: on the PHI check, a non-string `inputs_summary`
(here the integer `5`) makes `inputs_summary.lower()` raise
`AttributeError`, which propagates out instead of being converted to a
`passed=false` result. -/
theorem evaluate_check_raises_on_nonstring_summary :
    evaluate_check (mkCheck "tier1.no_phi_in_artifacts")
        [("inputs_summary", .int 5)] [] =
      .error "AttributeError: value has no attribute lower" := by
  rfl

/-! ### C3 / C8 — certificate determinism and provenance -/

/-- A minimal evaluation result (three empty passing tiers) for the
certificate fixtures. -/
def exEvaluation : EvaluationResult :=
  ⟨⟨some ⟨1, true, []⟩, some ⟨2, true, []⟩, some ⟨3, true, []⟩⟩,
   ⟨"approve", [], [], false, Option.none⟩,
   [("tier1", "1.0.0")]⟩

/-- C3 counterexample: with an empty caller provenance, two runs of
`create_certificate` from identical inputs that draw different random
certificate ids produce different provenance blocks — the synthesized
`audit_trace_id` embeds the certificate id — so the certificate differs
beyond `certificate_id` and `created_at`. -/
theorem create_certificate_provenance_differs :
    (create_certificate "id1" "t0" [] exEvaluation []).provenance ≠
      (create_certificate "id2" "t0" [] exEvaluation []).provenance := by
  intro h
  have h1 : dictGet (create_certificate "id1" "t0" [] exEvaluation []).provenance
      "audit_trace_id" = some (.str "trace_id1") := rfl
  rw [h] at h1
  have h2 : dictGet (create_certificate "id2" "t0" [] exEvaluation []).provenance
      "audit_trace_id" = some (.str "trace_id2") := rfl
  rw [h2] at h1
  simp at h1

/-- C3 amended: when the caller supplies both `audit_trace_id` and
`run_manifest_id`, nothing except `certificate_id` and `created_at`
depends on the drawn id and timestamp: two runs from identical inputs
agree on every other field, the provenance block included.  (Without
those keys the synthesized provenance entries embed the random
certificate id, as the counterexample shows.) -/
theorem create_certificate_deterministic_given_ids
    (artifact : PyDict) (evaluation : EvaluationResult) (prov : PyDict)
    (id1 t1 id2 t2 : String) (va vr : PyValue)
    (ha : dictGet prov "audit_trace_id" = some va)
    (hr : dictGet prov "run_manifest_id" = some vr) :
    (create_certificate id1 t1 artifact evaluation prov).artifact =
      (create_certificate id2 t2 artifact evaluation prov).artifact ∧
    (create_certificate id1 t1 artifact evaluation prov).rubrics_tier_1 =
      (create_certificate id2 t2 artifact evaluation prov).rubrics_tier_1 ∧
    (create_certificate id1 t1 artifact evaluation prov).rubrics_tier_2 =
      (create_certificate id2 t2 artifact evaluation prov).rubrics_tier_2 ∧
    (create_certificate id1 t1 artifact evaluation prov).rubrics_tier_3 =
      (create_certificate id2 t2 artifact evaluation prov).rubrics_tier_3 ∧
    (create_certificate id1 t1 artifact evaluation prov).gate_decision =
      (create_certificate id2 t2 artifact evaluation prov).gate_decision ∧
    (create_certificate id1 t1 artifact evaluation prov).provenance =
      (create_certificate id2 t2 artifact evaluation prov).provenance := by
  unfold create_certificate
  rw [ha, hr]
  exact ⟨rfl, rfl, rfl, rfl, rfl, rfl⟩

/-- The caller-supplied provenance with both identifiers for the C3
witness. -/
def provW : PyDict := [("audit_trace_id", .str "a"), ("run_manifest_id", .str "r")]

/-- Witness for C3 amended at concrete ids and timestamps. -/
theorem create_certificate_deterministic_given_ids_w :
    (create_certificate "i1" "n1" [] exEvaluation provW).provenance =
      (create_certificate "i2" "n2" [] exEvaluation provW).provenance :=
  (create_certificate_deterministic_given_ids [] exEvaluation provW
      "i1" "n1" "i2" "n2" (.str "a") (.str "r") rfl rfl).2.2.2.2.2

/-- C8 counterexample: a caller-supplied `rubric_versions` provenance
key is splatted in after the evaluation's own map and overrides it, so
the certificate's provenance does not contain the evaluation's
`rubric_versions` map. -/
theorem create_certificate_rubric_versions_overridden :
    dictGet (create_certificate "i" "t" [] exEvaluation
        [("rubric_versions", .str "bogus")]).provenance "rubric_versions" =
      some (.str "bogus") ∧
    PyValue.str "bogus" ≠ versionsToPy exEvaluation.rubric_versions :=
  ⟨rfl, fun h => by simp [versionsToPy, exEvaluation] at h⟩

/-- C8 amended: the certificate's provenance block always contains
`audit_trace_id` and `run_manifest_id` (the caller's values when
supplied, otherwise synthesized from the certificate id), contains the
evaluation's `rubric_versions` map unless the caller supplies a
`rubric_versions` key — which overrides it — and passes every
caller-supplied key other than `audit_trace_id` and `run_manifest_id`
through unchanged. -/
theorem create_certificate_provenance_contents
    (cid now : String) (artifact : PyDict) (evaluation : EvaluationResult)
    (prov : PyDict) (hnd : (prov.map Prod.fst).Nodup) :
    dictGet (create_certificate cid now artifact evaluation prov).provenance
        "audit_trace_id" =
      some ((dictGet prov "audit_trace_id").getD (.str ("trace_" ++ cid))) ∧
    dictGet (create_certificate cid now artifact evaluation prov).provenance
        "run_manifest_id" =
      some ((dictGet prov "run_manifest_id").getD (.str ("manifest_" ++ cid))) ∧
    (dictGet prov "rubric_versions" = Option.none →
      dictGet (create_certificate cid now artifact evaluation prov).provenance
          "rubric_versions" = some (versionsToPy evaluation.rubric_versions)) ∧
    (∀ k v, k ≠ "audit_trace_id" → k ≠ "run_manifest_id" →
      dictGet prov k = some v →
      dictGet (create_certificate cid now artifact evaluation prov).provenance k =
        some v) := by
  unfold create_certificate
  simp only []
  have hfilter : ∀ kv ∈ prov.filter
      (fun kv => !(kv.1 == "audit_trace_id" || kv.1 == "run_manifest_id")),
      kv.1 ≠ "audit_trace_id" ∧ kv.1 ≠ "run_manifest_id" := by
    intro kv hkv
    have := List.of_mem_filter hkv
    constructor <;> intro hq <;> simp [hq] at this
  refine ⟨?_, ?_, ?_, ?_⟩
  · rw [dictGet_foldl_assocInsert_miss _ _ _ fun kv hkv => (hfilter kv hkv).1]
    rfl
  · rw [dictGet_foldl_assocInsert_miss _ _ _ fun kv hkv => (hfilter kv hkv).2]
    rfl
  · intro hnone
    have hnd' : ((prov.filter
        (fun kv => !(kv.1 == "audit_trace_id" || kv.1 == "run_manifest_id"))).map
          Prod.fst).Nodup :=
      hnd.sublist ((List.filter_sublist prov).map Prod.fst)
    rw [dictGet_foldl_assocInsert _ _ _ hnd', dictGet_filter_none _ _ _ hnone]
    rfl
  · intro k v hka hkr hget
    have hnd' : ((prov.filter
        (fun kv => !(kv.1 == "audit_trace_id" || kv.1 == "run_manifest_id"))).map
          Prod.fst).Nodup :=
      hnd.sublist ((List.filter_sublist prov).map Prod.fst)
    rw [dictGet_foldl_assocInsert _ _ _ hnd',
        dictGet_filter_of_pred _ _ _ (by simp [hka, hkr]), hget]

/-- Witness for C8 amended: synthesized identifiers and an extra key
passed through, at a concrete caller provenance. -/
theorem create_certificate_provenance_contents_w :
    dictGet (create_certificate "i" "t" [] exEvaluation
        [("extra", .int 1)]).provenance "audit_trace_id" =
      some ((dictGet [("extra", (.int 1 : PyValue))] "audit_trace_id").getD
        (.str ("trace_" ++ "i"))) ∧
    dictGet (create_certificate "i" "t" [] exEvaluation
        [("extra", .int 1)]).provenance "extra" = some (.int 1) :=
  ⟨(create_certificate_provenance_contents "i" "t" [] exEvaluation
      [("extra", .int 1)] (by simp)).1,
   (create_certificate_provenance_contents "i" "t" [] exEvaluation
      [("extra", .int 1)] (by simp)).2.2.2 "extra" (.int 1)
      (by simp) (by simp) rfl⟩

/-! ### C4 — certificate hash binding -/

/-- A schema-conformant certificate whose `artifact.hash` is the empty
string. -/
def certEmptyHash : PyDict :=
  [("certificate_id", .str "c"), ("created_at", .str "t"),
   ("artifact", .dict [("hash", .str "")]), ("rubrics", .dict []),
   ("gate_decision", .dict []), ("provenance", .dict [])]

/-- C4 counterexample: `artifact.hash` equal to the empty string is
present and a string, so by the claim the verifier should reach the
digest comparison and report both the expected and actual digests; the
code's guard `not isinstance(expected_hash, str) or not expected_hash`
instead routes it to the missing-field error, which names neither
digest. -/
theorem verify_certificate_empty_hash :
    verify_certificate (fun s => "sha-" ++ s) certEmptyHash (some "x") =
      .ok ⟨false, ["artifact.hash missing from certificate (required for --artifact verification)"]⟩ ∧
    ("actual:   " ++ (fun s => "sha-" ++ s) "x") ∉
      ["artifact.hash missing from certificate (required for --artifact verification)"] :=
  ⟨rfl, by decide⟩

/-- C4 amended: for a certificate that passes schema validation and a
supplied artifact file, an `artifact.hash` that is absent, not a string,
or an *empty* string yields the invalid result with the explicit
missing-field error; a non-empty string hash yields valid exactly when
the digest of the file bytes equals it, and on mismatch the error list
reports both the expected and the actual digest. -/
theorem verify_certificate_hash_binding (sha : String → String)
    (cert : PyDict) (content : String) (d : PyDict)
    (hs : certificate_schema_errors cert = [])
    (hd : dictGet cert "artifact" = some (.dict d)) :
    (dictGet d "hash" = Option.none →
      verify_certificate sha cert (some content) =
        .ok ⟨false, ["artifact.hash missing from certificate (required for --artifact verification)"]⟩) ∧
    (∀ v, dictGet d "hash" = some v → (∀ s, v ≠ .str s) →
      verify_certificate sha cert (some content) =
        .ok ⟨false, ["artifact.hash missing from certificate (required for --artifact verification)"]⟩) ∧
    (dictGet d "hash" = some (.str "") →
      verify_certificate sha cert (some content) =
        .ok ⟨false, ["artifact.hash missing from certificate (required for --artifact verification)"]⟩) ∧
    (∀ s, dictGet d "hash" = some (.str s) → s ≠ "" →
      verify_certificate sha cert (some content) =
        .ok (if sha content = s then ⟨true, []⟩
             else ⟨false, ["artifact hash mismatch", "expected: " ++ s,
                           "actual:   " ++ sha content]⟩)) := by
  unfold verify_certificate
  rw [hs]
  simp only [List.isEmpty_nil, Bool.not_false, if_false, hd, Option.getD_some]
  refine ⟨fun hh => ?_, fun v hh hv => ?_, fun hh => ?_, fun s hh hs' => ?_⟩
  · simp [asDict, hh]
  · cases v with
    | str s => exact absurd rfl (hv s)
    | int n => simp [asDict, hh]
    | num q => simp [asDict, hh]
    | bool b => simp [asDict, hh]
    | none => simp [asDict, hh]
    | dict l => simp [asDict, hh]
  · simp [asDict, hh]
  · simp only [asDict, hh]
    by_cases hc : sha content = s <;> simp [hc, hs']

/-- A schema-conformant certificate binding the digest of the file
bytes `"x"` under the witness digest function. -/
def certGoodHash : PyDict :=
  [("certificate_id", .str "c"), ("created_at", .str "t"),
   ("artifact", .dict [("hash", .str "sha-x")]), ("rubrics", .dict []),
   ("gate_decision", .dict []), ("provenance", .dict [])]

/-- Witness for C4 amended: the matching-digest case verifies. -/
theorem verify_certificate_hash_binding_w :
    verify_certificate (fun s => "sha-" ++ s) certGoodHash (some "x") =
      .ok ⟨true, []⟩ := by
  have h := (verify_certificate_hash_binding (fun s => "sha-" ++ s) certGoodHash
      "x" [("hash", .str "sha-x")] rfl rfl).2.2.2 "sha-x" rfl (by decide)
  simpa using h

/-! ### C7 — rubric_versions keying -/

/-- Repeatedly assigning the same dict key across a list keeps only the
last value. -/
theorem foldl_assocInsert_same_key {α β : Type} (k : String) (g : β → α) :
    ∀ (l : List β) (acc : List (String × α)),
      l.foldl (fun a s => assocInsert a k (g s)) acc =
        match l.getLast? with
        | Option.none => acc
        | some s => assocInsert acc k (g s)
  | [], _ => rfl
  | s :: rest, acc => by
      rw [List.foldl_cons,
          foldl_assocInsert_same_key k g rest (assocInsert acc k (g s))]
      cases rest with
      | nil => simp
      | cons h t =>
          have hx : ∃ x, (h :: t).getLast? = some x :=
            ⟨(h :: t).getLast (by simp), List.getLast?_eq_getLast _ _⟩
          obtain ⟨x, hx⟩ := hx
          rw [hx, List.getLast?_cons_cons, hx]
          simp [assocInsert_assocInsert]

/-- The spec-side shape of one tier's contribution to `evaluate`'s
`rubric_versions` map: one `"tier{N}"`-keyed entry carrying the version
of the tier's last-loaded suite, nothing for an empty tier. -/
def tierEntry (k : String) (l : List RubricSuite) : List (String × String) :=
  match l.getLast? with
  | Option.none => []
  | some s => [(k, s.version)]

/-- A pair of suites sharing tier 1 with distinct ids and versions. -/
def suiteA : RubricSuite := ⟨"suite_a", 1, "1.0", "", []⟩

/-- Second tier-1 suite. -/
def suiteB : RubricSuite := ⟨"suite_b", 1, "2.0", "", []⟩

/-- A catalog in which tier 1 holds both suites. -/
def twoSuitesT1 : RubricsByTier := ⟨[suiteA, suiteB], [], []⟩

/-- A rubrics directory from which `load_all_rubrics` produces
`twoSuitesT1`. -/
def twoSuitesFS : RubricsDirFS :=
  ⟨some [("a.yaml", .ok suiteA), ("b.yaml", .ok suiteB)], Option.none, Option.none⟩

/-- C7 counterexample: with two suites `suite_a`/`suite_b` sharing
tier 1, the `rubric_versions` map of `evaluate`'s result has no
`suite_a` key at all — it is keyed by `"tier1"`, holding only the last
suite's version — while the loader's `get_rubric_versions` view is keyed
by suite id, so the two disagree. -/
theorem evaluate_rubric_versions_not_suite_keyed :
    Except.map (fun r : EvaluationResult =>
        (dictGet r.rubric_versions "suite_a", dictGet r.rubric_versions "tier1"))
      (evaluate twoSuitesT1 [] []) = .ok (Option.none, some "2.0") ∧
    get_rubric_versions twoSuitesFS = .ok [("suite_a", "1.0"), ("suite_b", "2.0")] :=
  ⟨rfl, rfl⟩

/-- C7 amended: the `rubric_versions` map of every successful `evaluate`
result is keyed by the tier label `"tier{N}"`, not by suite id: it holds
one entry per non-empty tier, carrying the version of the tier's
last-loaded suite (later suites of a shared tier overwrite earlier
ones).  The suite_id→version view exists separately as
`get_rubric_versions`. -/
theorem evaluate_rubric_versions_shape (rubrics : RubricsByTier)
    (artifact context : PyDict) (r : EvaluationResult)
    (h : evaluate rubrics artifact context = .ok r) :
    r.rubric_versions = evalRubricVersions rubrics ∧
    evalRubricVersions rubrics =
      tierEntry "tier1" rubrics.t1 ++ tierEntry "tier2" rubrics.t2 ++
        tierEntry "tier3" rubrics.t3 := by
  constructor
  · unfold evaluate at h
    cases h1 : evaluate_tier rubrics 1 artifact context with
    | error e => rw [h1] at h; exact absurd h (by simp)
    | ok t1 =>
        rw [h1] at h
        cases h2 : evaluate_tier rubrics 2 artifact context with
        | error e => rw [h2] at h; exact absurd h (by simp)
        | ok t2 =>
            rw [h2] at h
            cases h3 : evaluate_tier rubrics 3 artifact context with
            | error e => rw [h3] at h; exact absurd h (by simp)
            | ok t3 =>
                rw [h3] at h
                simp only [Except.ok.injEq] at h
                rw [← h]
  · unfold evalRubricVersions
    simp only [foldl_assocInsert_same_key]
    have e1 : "tier" ++ toString (1 : Int) = "tier1" := rfl
    have e2 : "tier" ++ toString (2 : Int) = "tier2" := rfl
    have e3 : "tier" ++ toString (3 : Int) = "tier3" := rfl
    cases hg1 : rubrics.t1.getLast? <;> cases hg2 : rubrics.t2.getLast? <;>
      cases hg3 : rubrics.t3.getLast? <;>
        simp [tierEntry, hg1, hg2, hg3, assocInsert, e1, e2, e3,
              assocInsert_eq_append, dictGet]

/-- The evaluation result `evaluate` returns on the two-suite catalog
with empty artifact and context (both trivially passing tiers, empty
checks). -/
def exEvalResult : EvaluationResult :=
  ⟨⟨some ⟨1, true, []⟩, some ⟨2, true, []⟩, some ⟨3, true, []⟩⟩,
   ⟨"approve", [], [], false, Option.none⟩,
   [("tier1", "2.0")]⟩

/-- Witness for C7 amended at the concrete two-suite catalog. -/
theorem evaluate_rubric_versions_shape_w :
    exEvalResult.rubric_versions = evalRubricVersions twoSuitesT1 ∧
    evalRubricVersions twoSuitesT1 =
      tierEntry "tier1" twoSuitesT1.t1 ++ tierEntry "tier2" twoSuitesT1.t2 ++
        tierEntry "tier3" twoSuitesT1.t3 :=
  evaluate_rubric_versions_shape twoSuitesT1 [] [] exEvalResult rfl

/-! ### C9 — catalog loading failure semantics -/

/-- The suites a tier directory contributes: every file whose load
succeeded, in glob order (spec-side description of the skip-bad-files
policy). -/
def tierOks : TierDirFS → List RubricSuite
  | Option.none => []
  | some files => files.filterMap (fun f => (f.2).toOption)

/-- The warnings a tier directory produces: one per file whose load
failed (spec-side description). -/
def tierWarnings : TierDirFS → List String
  | Option.none => []
  | some files =>
      files.filterMap (fun f =>
        match f.2 with
        | .ok _ => Option.none
        | .error e => some ("Warning: Failed to load " ++ f.1 ++ ": " ++ e))

/-- The per-tier fold collects exactly the loadable suites and one
warning per unloadable file. -/
theorem loadTierDir_eq (d : TierDirFS) :
    loadTierDir d = (tierOks d, tierWarnings d) := by
  cases d with
  | none => rfl
  | some files =>
      suffices h : ∀ (acc : List RubricSuite × List String),
          files.foldl
            (fun acc file =>
              match file.2 with
              | .ok suite => (acc.1 ++ [suite], acc.2)
              | .error e =>
                  (acc.1, acc.2 ++ ["Warning: Failed to load " ++ file.1 ++ ": " ++ e]))
            acc =
          (acc.1 ++ tierOks (some files), acc.2 ++ tierWarnings (some files)) by
        simpa using h ([], [])
      induction files with
      | nil => intro acc; simp [tierOks, tierWarnings]
      | cons f rest ih =>
          intro acc
          cases hf : f.2 with
          | ok suite => simp [List.foldl_cons, hf, ih, tierOks, tierWarnings,
              List.filterMap_cons, Except.toOption]
          | error e => simp [List.foldl_cons, hf, ih, tierOks, tierWarnings,
              List.filterMap_cons, Except.toOption]

/-- C9 counterexample: a rubrics directory in which none of the three
tier subdirectories exists — in particular a requested directory that
does not exist at all — makes `load_all_rubrics` return successfully
with an empty catalog and no warnings, rather than propagating a hard
failure. -/
theorem load_all_rubrics_missing_dir_silent :
    load_all_rubrics ⟨Option.none, Option.none, Option.none⟩ =
      .ok (⟨[], [], []⟩, []) := rfl

/-- C9 amended: `load_all_rubrics` never raises, for any state of the
rubrics directory: a missing directory (all tier subdirectories absent)
silently yields an empty catalog, and each file that fails to load is
skipped with one warning while every loadable suite of the same
directory is still returned. -/
theorem load_all_rubrics_skip_and_continue (fs : RubricsDirFS) :
    load_all_rubrics fs =
      .ok (⟨tierOks fs.tier1, tierOks fs.tier2, tierOks fs.tier3⟩,
           tierWarnings fs.tier1 ++ tierWarnings fs.tier2 ++ tierWarnings fs.tier3) := by
  unfold load_all_rubrics
  rw [loadTierDir_eq, loadTierDir_eq, loadTierDir_eq]

end RubricGates
